import Mathlib

/-!
Verification of the kvaser-remotivebus-plugin core against its
natural-language specification, via a shallow embedding of the Rust
sources in Lean 4.

Embedding conventions:
* byte sequences are `List Nat` whose elements are byte values;
* `u32` arithmetic is `Nat` with an explicit `% 2^32` where overflow can
  occur; the saturating `f32 as u32` cast is modelled by `f32ToU32`;
* `f32` values produced by parsing decimal literals are modelled exactly
  as rationals (`ℚ`);
* fallible Rust functions returning `anyhow::Result` are modelled with
  `Except`; panics (out-of-bounds indexing) are modelled by an outer
  `Option` layer where relevant;
* Rust `HashMap`/`HashSet` are modelled as association lists / lists with
  insert-or-replace semantics (only lookup and membership are observed).
-/

/-- Wire-level bus frame, `frame::Frame` from `src/frame.rs`:
a 32-bit id and a payload byte vector. -/
structure Frame where
  id : Nat
  msg : List Nat
deriving DecidableEq, Repr

/-- Decoded packet, `frame::Packet` from `src/frame.rs`. -/
structure Packet where
  frame : Frame
deriving DecidableEq, Repr

/-- Decode errors of `frame::parse_packet`.  The Rust code produces
`anyhow` string errors; we keep the distinguishing data (packet length,
declared length) as constructor arguments. -/
inductive ParseError where
  | tooShort : Nat → ParseError
  | lengthMismatch : Nat → Nat → ParseError
deriving DecidableEq, Repr

/-- Little-endian read of four bytes as an unsigned 32-bit integer,
modelling `u32::from_ne_bytes` on the little-endian targets this
plugin runs on. -/
def le32 (b0 b1 b2 b3 : Nat) : Nat :=
  b0 + 2 ^ 8 * b1 + 2 ^ 16 * b2 + 2 ^ 24 * b3

/-- Embedding of `frame::parse_packet` (src/frame.rs).  Requires at least
8 bytes; id is the first four bytes, the declared length is byte 4, the
candidate payload is everything from offset 8.  The `getD` defaults are
never reached because the length guard ensures eight bytes exist. -/
def parse_packet (packet : List Nat) : Except ParseError Packet :=
  if 8 ≤ packet.length then
    let id := le32 (packet.getD 0 0) (packet.getD 1 0) (packet.getD 2 0) (packet.getD 3 0)
    let msg_len := packet.getD 4 0
    let msg := packet.drop 8
    if msg_len < msg.length then
      .ok ⟨⟨id, msg.take msg_len⟩⟩
    else if msg ≠ [] ∧ msg.length < msg_len then
      .error (.lengthMismatch msg_len packet.length)
    else
      .ok ⟨⟨id, msg⟩⟩
  else
    .error (.tooShort packet.length)

/-- Little-endian byte decomposition of a 32-bit id, used to build the
wire packet for the round-trip property. -/
def toLeBytes (id : Nat) : List Nat :=
  [id % 2 ^ 8, id / 2 ^ 8 % 2 ^ 8, id / 2 ^ 16 % 2 ^ 8, id / 2 ^ 24 % 2 ^ 8]

/-- Abstract model of a wrapped `Slave` backend (trait `Slave` extending
`FrameReader` in src/masterslave.rs): a deterministic state machine over
an opaque state type with non-blocking `try_read` and fallible `update`. -/
structure SlaveSM (σ : Type) where
  try_read : σ → Option Frame × σ
  update : Frame → σ → Except String Unit × σ

/-- State of `NoEchoSlave` (src/noechoslave.rs): the wrapped target's
state and the `updated_frames` id set (`HashSet<u32>` modelled as a
duplicate-free list of ids; only membership is observed). -/
structure NoEchoState (σ : Type) where
  target : σ
  updated_frames : List Nat

/-- Insert-if-absent, modelling `HashSet::insert`. -/
def hsInsert (x : Nat) (s : List Nat) : List Nat :=
  if x ∈ s then s else x :: s

/-- Embedding of `NoEchoSlave::try_read`: delegate to the wrapped slave;
if a frame comes back whose id is in `updated_frames`, clear its payload
(`f.msg.clear()`).  The set itself is not modified. -/
def NoEchoSlave.try_read {σ : Type} (S : SlaveSM σ) (st : NoEchoState σ) :
    Option Frame × NoEchoState σ :=
  match S.try_read st.target with
  | (some f, t) =>
      (some (if f.id ∈ st.updated_frames then { f with msg := [] } else f),
        { st with target := t })
  | (none, t) => (none, { st with target := t })

/-- Embedding of `NoEchoSlave::update`: insert the id into
`updated_frames`, then forward to the wrapped slave and return its
result. -/
def NoEchoSlave.update {σ : Type} (S : SlaveSM σ) (f : Frame) (st : NoEchoState σ) :
    Except String Unit × NoEchoState σ :=
  let fs := hsInsert f.id st.updated_frames
  match S.update f st.target with
  | (r, t) => (r, { target := t, updated_frames := fs })

/-- Concrete wrapped slave for exercising `NoEchoSlave`: always yields
frame id 1 with payload `[5]`, accepts every update. -/
def c3Slave : SlaveSM Unit :=
  ⟨fun _ => (some ⟨1, [5]⟩, ()), fun _ _ => (.ok (), ())⟩

/-- Decorator state after one `update` of frame id 1 on `c3Slave`. -/
def c3St1 : NoEchoState Unit :=
  (NoEchoSlave.update c3Slave ⟨1, [5]⟩ ⟨(), []⟩).2

/-- Decorator state after that update and one `try_read`. -/
def c3St2 : NoEchoState Unit :=
  (NoEchoSlave.try_read c3Slave c3St1).2

/-- Concrete wrapped slave whose `update` always fails, for the
non-atomicity property: yields frame id 7 with payload `[9]`. -/
def c10Slave : SlaveSM Unit :=
  ⟨fun _ => (some ⟨7, [9]⟩, ()), fun _ _ => (.error "wrapped update failed", ())⟩

/-- Lookup in a string-keyed map modelled as an association list
(`HashMap::get`). -/
def mapGet {α : Type} (m : List (String × α)) (k : String) : Option α :=
  (m.find? (fun p => p.1 == k)).map (fun p => p.2)

/-- Insert-or-replace in a string-keyed association list
(`HashMap::insert`); only `mapGet` is ever observed. -/
def mapInsert {α : Type} (k : String) (v : α) (m : List (String × α)) :
    List (String × α) :=
  if m.any (fun p => p.1 == k) then
    m.map (fun p => if p.1 == k then (k, v) else p)
  else
    m ++ [(k, v)]

/-- The saturating Rust `f32 as u32` cast, on the exact rational model
of the float: truncation toward zero clamped to `[0, 2^32)`.  All casts
in this code act on non-negative values, where truncation is the floor. -/
def f32ToU32 (q : ℚ) : Nat :=
  (min ((2 : ℤ) ^ 32 - 1) (max 0 ⌊q⌋)).toNat

/-- Embedding of `ldf::Header`. -/
structure Header where
  baudrate : Nat
deriving DecidableEq, Repr

/-- Embedding of `ldf::Nodes`: master node name and base tick in ms. -/
structure Nodes where
  master : String
  base_tick_ms : Nat
deriving DecidableEq, Repr

/-- Embedding of `ldf::Frame` (named `LdfFrame` because the wire-level
`Frame` already uses the source name): a frame descriptor with hex id,
owning node and size in bytes. -/
structure LdfFrame where
  name : String
  id : Nat
  owner : String
  size : Nat
deriving DecidableEq, Repr

/-- Embedding of `ldf::ScheduleTableItem`; the `f32` delay is modelled
as an exact rational. -/
structure ScheduleTableItem where
  name : String
  delay : ℚ
deriving DecidableEq, Repr

/-- Embedding of `ldf::ScheduleTable`. -/
structure ScheduleTable where
  name : String
  items : List ScheduleTableItem
deriving DecidableEq, Repr

/-- Embedding of `ldf::LDF`; the two `HashMap`s are association lists. -/
structure LDF where
  header : Header
  nodes : Nodes
  frames : List (String × LdfFrame)
  schedule_tables : List (String × ScheduleTable)
deriving DecidableEq, Repr

/-- Mutable state of `simulator::MasterSimulator` (src/simulator.rs).
The Rust `table_index` is an `i32` that stays in `[0, table length)`;
it is modelled as `Nat`.  `elapsed_in_table_index` is a `u32`. -/
structure MasterSimState where
  schedule_table_name : String
  ldf : LDF
  table_index : Nat
  elapsed_in_table_index : Nat
deriving DecidableEq, Repr

/-- Embedding of `MasterSimulator::new`: both counters start at 0. -/
def MasterSimulator.new (ldf : LDF) (schedule_table_name : String) : MasterSimState :=
  ⟨schedule_table_name, ldf, 0, 0⟩

/-- Embedding of `MasterSimulator::try_read` (src/simulator.rs).  The
outer `Option` models panic freedom: `none` is the out-of-bounds panic
of `table.items[self.table_index]`; `some` is normal return of the
polled frame (if any) and the successor state.  The delay comparison
uses the truncating `table_entry.delay as u32` cast, and the `u32`
elapsed counter wraps modulo `2^32`. -/
def MasterSimulator.try_read (s : MasterSimState) :
    Option (Option Frame × MasterSimState) :=
  match mapGet s.ldf.schedule_tables s.schedule_table_name with
  | none => some (none, s)
  | some table =>
    match table.items[s.table_index]? with
    | none => none
    | some table_entry =>
      match mapGet s.ldf.frames table_entry.name with
      | none => some (none, s)
      | some fd =>
        let elapsed0 := s.elapsed_in_table_index
        let elapsed1 := (s.elapsed_in_table_index + s.ldf.nodes.base_tick_ms) % 2 ^ 32
        let s' :=
          if f32ToU32 table_entry.delay ≤ elapsed1 then
            { s with table_index := (s.table_index + 1) % table.items.length,
                     elapsed_in_table_index := 0 }
          else
            { s with elapsed_in_table_index := elapsed1 }
        if elapsed0 = 0 then
          some (some ⟨fd.id,
            if fd.owner = s.ldf.nodes.master then List.range fd.size else []⟩, s')
        else
          some (none, s')

/-- Model with the named table present but whose single entry names a
frame descriptor that is absent from the `Frames` map. -/
def c5Ldf : LDF :=
  ⟨⟨19200⟩, ⟨"TheMaster", 5⟩, [], [("T", ⟨"T", [⟨"F", (15 : ℚ)⟩]⟩)]⟩

/-- Freshly constructed simulator over `c5Ldf`, polling table `T`. -/
def c5State : MasterSimState := MasterSimulator.new c5Ldf "T"

/-- Model whose named table `T` exists but has an empty item list. -/
def c9LdfEmpty : LDF :=
  ⟨⟨0⟩, ⟨"M", 5⟩, [], [("T", ⟨"T", []⟩)]⟩

/-- Simulator over `c9LdfEmpty` polling the empty table `T`. -/
def c9StEmpty : MasterSimState := MasterSimulator.new c9LdfEmpty "T"

/-- Simulator over `c9LdfEmpty` polling the absent table name `X`. -/
def c9StAbsent : MasterSimState := MasterSimulator.new c9LdfEmpty "X"

/-- Model with a non-empty named table, for the totality side of C9. -/
def c9LdfGood : LDF :=
  ⟨⟨0⟩, ⟨"M", 5⟩, [("F", ⟨"F", 49, "M", 3⟩)], [("T", ⟨"T", [⟨"F", (15 : ℚ)⟩]⟩)]⟩

/-- Simulator over `c9LdfGood` polling table `T`. -/
def c9StGood : MasterSimState := MasterSimulator.new c9LdfGood "T"

/-- Well-formed model for the schedule-driven emitter: one master-owned
frame descriptor and a one-entry table with a 15 ms delay, 5 ms tick. -/
def c5GoodLdf : LDF :=
  ⟨⟨0⟩, ⟨"TheMaster", 5⟩, [("F", ⟨"F", 49, "TheMaster", 3⟩)],
    [("T", ⟨"T", [⟨"F", (15 : ℚ)⟩]⟩)]⟩

/-- Freshly constructed simulator over `c5GoodLdf`. -/
def c5GoodState : MasterSimState := MasterSimulator.new c5GoodLdf "T"

/-- Abstract model of a `Master` backend (trait `Master` in
src/masterslave.rs), reduced to the outcomes of its two fallible
operations; the bridge claims only observe which call is made and how
its error propagates. -/
structure MasterIface where
  write : Frame → Except String Unit
  request_update : Nat → Except String Unit

/-- One observable call made on a `Master` backend. -/
inductive MasterCall where
  | write : Frame → MasterCall
  | request_update : Nat → MasterCall
deriving DecidableEq, Repr

/-- One observable call made on a `Slave` backend.  The slave-role
handler logs and swallows the wrapped `update`'s error, so only the
call list is observable there. -/
inductive SlaveCall where
  | update : Frame → SlaveCall
deriving DecidableEq, Repr

/-- Result of one bridge-loop iteration: keep looping, exit with
success (cancellation), or exit with an error. -/
inductive LoopStep where
  | next : LoopStep
  | exitOk : LoopStep
  | exitErr : String → LoopStep
deriving DecidableEq, Repr

/-- Embedding of `worker::read_and_forward_network_master_frame`
(src/worker.rs): decode the inbound bytes; on success dispatch an empty
payload to `request_update(id)` and a non-empty one to `write(frame)`,
returning the backend result; a decode failure is logged and the
function returns `Ok(())`.  The call list records the backend calls
made. -/
def read_and_forward_network_master_frame (m : MasterIface) (bytes : List Nat) :
    List MasterCall × Except String Unit :=
  match parse_packet bytes with
  | .ok packet =>
    if packet.frame.msg = [] then
      ([.request_update packet.frame.id], m.request_update packet.frame.id)
    else
      ([.write packet.frame], m.write packet.frame)
  | .error _ => ([], .ok ())

/-- Embedding of `worker::read_and_forward_network_slave_frame`
(src/worker.rs): decode; on success call `update(frame)` whose error is
only logged; on decode failure make no call.  The function never
returns an error, so only the call list is observable. -/
def read_and_forward_network_slave_frame (bytes : List Nat) : List SlaveCall :=
  match parse_packet bytes with
  | .ok packet => [.update packet.frame]
  | .error _ => []

/-- The inbound-network arm of `worker::run_master_role`'s `select!`
loop: a socket read error exits the loop with an error, and the `?` on
`read_and_forward_network_master_frame` turns any backend error into a
loop exit as well. -/
def run_master_role_vbus_event (m : MasterIface) (result : Except String (List Nat)) :
    LoopStep :=
  match result with
  | .error e => .exitErr ("Failed to read socket frame " ++ e)
  | .ok bytes =>
    match (read_and_forward_network_master_frame m bytes).2 with
    | .ok _ => .next
    | .error e => .exitErr e

/-- The inbound-network arm of `worker::run_slave_role`'s `select!`
loop: a socket read error exits with an error; otherwise
`read_and_forward_network_slave_frame` returns unit and the loop always
continues. -/
def run_slave_role_vbus_event (result : Except String (List Nat)) : LoopStep :=
  match result with
  | .error e => .exitErr ("Failed to read socket frame " ++ e)
  | .ok _ => .next

/-- Master backend whose `request_update` always fails and whose
`write` always succeeds. -/
def c2Master : MasterIface :=
  ⟨fun _ => .ok (), fun _ => .error "request_update failed"⟩

/-- Master backend whose `write` always fails. -/
def c2WMaster : MasterIface :=
  ⟨fun _ => .error "write failed", fun _ => .ok ()⟩

/-- Wire packet decoding to id 0x31 with empty payload (declared length
0 truncates the 8 candidate bytes away): a request-update frame. -/
def c2Packet : List Nat := [49, 0, 0, 0, 0, 0, 0, 0, 0, 0, 0, 0, 0, 0, 0, 0]

/-- Wire packet decoding to id 0x31 with payload `[10, 20, 30]`. -/
def c2WPacket : List Nat := [49, 0, 0, 0, 3, 0, 0, 0, 10, 20, 30, 0, 0, 0, 0, 0]

/-- Trivial always-ok master backend. -/
def c7Master : MasterIface := ⟨fun _ => .ok (), fun _ => .ok ()⟩

/-- Whitespace class of the regex escape `\s`. -/
def isSpaceChar (c : Char) : Bool :=
  c = ' ' || c = '\t' || c = '\n' || c = '\r' || c = '\x0b' || c = '\x0c'

/-- Word-character class of the regex escape `\w` (ASCII fragment, which
is all the schedule files use). -/
def isWordChar (c : Char) : Bool :=
  c.isAlphanum || c = '_'

/-- Hexadecimal digit class `[0-9A-Fa-f]`. -/
def isHexChar (c : Char) : Bool :=
  c.isDigit || ('a' ≤ c && c ≤ 'f') || ('A' ≤ c && c ≤ 'F')

/-- Rust `str::ends_with` with a one-character pattern, the only form
the loader uses: true exactly when the line's last character is `c`. -/
def strEndsWith (l : String) (c : Char) : Bool :=
  match l.toList.getLast? with
  | some d => d = c
  | none => false

/-- Match a literal prefix, returning the remainder on success. -/
def dropPrefixL : List Char → List Char → Option (List Char)
  | [], s => some s
  | _ :: _, [] => none
  | c :: p, d :: s => if c = d then dropPrefixL p s else none

/-- Decimal value of a digit run. -/
def digitsToNat (ds : List Char) : Nat :=
  ds.foldl (fun a c => 10 * a + (c.toNat - 48)) 0

/-- Value of one hex digit. -/
def hexVal (c : Char) : Nat :=
  if c.isDigit then c.toNat - 48
  else if 'a' ≤ c && c ≤ 'f' then c.toNat - 87
  else c.toNat - 55

/-- Hexadecimal value of a hex-digit run. -/
def hexDigitsToNat (ds : List Char) : Nat :=
  ds.foldl (fun a c => 16 * a + hexVal c) 0

/-- Match the regex fragment `[0-9]+\.[0-9]+` at the head of the input
and return its exact rational value (the model of the `f32` the Rust
code parses from the same digits) and the remainder. -/
def parseDecimal (s : List Char) : Option (ℚ × List Char) :=
  let (d1, rest1) := s.span Char.isDigit
  if d1 = [] then none
  else
    match rest1 with
    | '.' :: rest2 =>
      let (d2, rest3) := rest2.span Char.isDigit
      if d2 = [] then none
      else some ((digitsToNat d1 : ℚ) + (digitsToNat d2 : ℚ) / (10 : ℚ) ^ d2.length, rest3)
    | _ => none

/-- Match of the baudrate directive regex
`LIN_speed = ([0-9]+\.[0-9]+) kbps;` anchored at the line start
(src/ldf.rs, `parse_ldf_lines`), returning the captured kbps value. -/
def parseBaudrateLine (line : String) : Option ℚ :=
  match dropPrefixL "LIN_speed = ".toList line.toList with
  | none => none
  | some r =>
    match parseDecimal r with
    | none => none
    | some (v, r2) =>
      match dropPrefixL " kbps;".toList r2 with
      | none => none
      | some _ => some v

/-- Match of the master-node regex
`\s*Master: ([A-Za-z0-9]+), ([0-9]+\.[0-9]+) ms` (src/ldf.rs,
`parse_nodes`), returning master name and tick value. -/
def parseMasterLine (line : String) : Option (String × ℚ) :=
  let s := line.toList.dropWhile isSpaceChar
  match dropPrefixL "Master: ".toList s with
  | none => none
  | some r =>
    let (n, r1) := r.span Char.isAlphanum
    if n = [] then none
    else
      match dropPrefixL ", ".toList r1 with
      | none => none
      | some r2 =>
        match parseDecimal r2 with
        | none => none
        | some (v, r3) =>
          match dropPrefixL " ms".toList r3 with
          | none => none
          | some _ => some (String.mk n, v)

/-- Match of the frame-entry regex
`\s*([A-Za-z0-9]+):\s+0x([0-9A-Fa-f]+),\s+(\w+),\s+(\d+)\s*\x7b`
(src/ldf.rs, `parse_frames`), returning name, numeric id, owner and
numeric size, each still unbounded as the regex allows. -/
def parseFrameLine (line : String) : Option (String × Nat × String × Nat) :=
  let s := line.toList.dropWhile isSpaceChar
  let (n, r0) := s.span Char.isAlphanum
  if n = [] then none
  else
    match r0 with
    | ':' :: r1 =>
      let (w1, r2) := r1.span isSpaceChar
      if w1 = [] then none
      else
        match dropPrefixL "0x".toList r2 with
        | none => none
        | some r3 =>
          let (hx, r4) := r3.span isHexChar
          if hx = [] then none
          else
            match r4 with
            | ',' :: r5 =>
              let (w2, r6) := r5.span isSpaceChar
              if w2 = [] then none
              else
                let (ow, r7) := r6.span isWordChar
                if ow = [] then none
                else
                  match r7 with
                  | ',' :: r8 =>
                    let (w3, r9) := r8.span isSpaceChar
                    if w3 = [] then none
                    else
                      let (dg, r10) := r9.span Char.isDigit
                      if dg = [] then none
                      else
                        match r10.dropWhile isSpaceChar with
                        | '\x7b' :: _ =>
                          some (String.mk n, hexDigitsToNat hx, String.mk ow, digitsToNat dg)
                        | _ => none
                  | _ => none
            | _ => none
    | _ => none

/-- Match of the table-name regex `\s*([A-Za-z0-9]+)\s\x7b`
(src/ldf.rs, `parse_schedule_table`). -/
def parseScheduleTableName (line : String) : Option String :=
  let s := line.toList.dropWhile isSpaceChar
  let (n, r0) := s.span Char.isAlphanum
  if n = [] then none
  else
    match r0 with
    | c :: '\x7b' :: _ => if isSpaceChar c then some (String.mk n) else none
    | _ => none

/-- Match of the table-entry regex
`\s*([A-Za-z0-9]+)\sdelay\s([0-9]+\.[0-9]+) ms;` (src/ldf.rs,
`parse_schedule_table`). -/
def parseTableEntryLine (line : String) : Option (String × ℚ) :=
  let s := line.toList.dropWhile isSpaceChar
  let (n, r0) := s.span Char.isAlphanum
  if n = [] then none
  else
    match r0 with
    | c :: r1 =>
      if isSpaceChar c then
        match dropPrefixL "delay".toList r1 with
        | none => none
        | some r2 =>
          match r2 with
          | d :: r3 =>
            if isSpaceChar d then
              match parseDecimal r3 with
              | none => none
              | some (v, r4) =>
                match dropPrefixL " ms;".toList r4 with
                | none => none
                | some _ => some (String.mk n, v)
            else none
          | [] => none
      else none
    | [] => none

/-- Embedding of `ldf::parse_nodes` (src/ldf.rs): scan lines until the
closing-brace line, folding every master-line match into the
accumulator (the tick is stored through the `f32 as u32` cast); an
exhausted stream is the "Nodes section never ended!" error. -/
def parse_nodes : List String → Nodes → Except String (Nodes × List String)
  | [], _ => .error "Nodes section never ended!"
  | l :: rest, nodes =>
    if l = "\x7d" then .ok (nodes, rest)
    else
      match parseMasterLine l with
      | some (name, tick) => parse_nodes rest ⟨name, f32ToU32 tick⟩
      | none => parse_nodes rest nodes

/-- Embedding of `ldf::parse_frames` (src/ldf.rs): each frame-entry
match is inserted (the Rust `u32::from_str_radix` and `u8` parse fail
on overflow, modelled by the two range guards); a closing-brace line
returns; an exhausted stream is the "Frames section never ended!"
error. -/
def parse_frames : List String → List (String × LdfFrame) →
    Except String (List (String × LdfFrame) × List String)
  | [], _ => .error "Frames section never ended!"
  | l :: rest, frames =>
    match parseFrameLine l with
    | some (name, idN, ow, sizeN) =>
      if 2 ^ 32 ≤ idN then .error "number too large to fit in target type"
      else if 2 ^ 8 ≤ sizeN then .error "number too large to fit in target type"
      else parse_frames rest (mapInsert name ⟨name, idN, ow, sizeN⟩ frames)
    | none =>
      if l = "\x7d" then .ok (frames, rest)
      else parse_frames rest frames

/-- Embedding of the entry loop of `ldf::parse_schedule_table`
(src/ldf.rs): a line ending in a closing brace returns the table built
so far; entry matches are appended in order; an exhausted stream is the
"Schedule_Table section never ended!" error. -/
def parse_schedule_table : List String → ScheduleTable →
    Except String (ScheduleTable × List String)
  | [], _ => .error "Schedule_Table section never ended!"
  | l :: rest, tbl =>
    if strEndsWith l '\x7d' then .ok (tbl, rest)
    else
      match parseTableEntryLine l with
      | some (n, d) => parse_schedule_table rest ⟨tbl.name, tbl.items ++ [⟨n, d⟩]⟩
      | none => parse_schedule_table rest tbl

/-- Header handling of `ldf::parse_schedule_table`: the opening line
must match the table-name regex, else the loader fails with
"Schedule table name is missing". -/
def parse_schedule_table_header (line : String) (lines : List String) :
    Except String (ScheduleTable × List String) :=
  match parseScheduleTableName line with
  | none => .error "Schedule table name is missing"
  | some n => parse_schedule_table lines ⟨n, []⟩

/-- A successful `parse_nodes` leaves a suffix of its input. -/
theorem parse_nodes_rest_length :
    ∀ (lines : List String) (acc nodes : Nodes) (rest : List String),
      parse_nodes lines acc = .ok (nodes, rest) → rest.length ≤ lines.length := by
  intro lines
  induction lines with
  | nil => intro acc nodes rest h; simp [parse_nodes] at h
  | cons l ls ih =>
    intro acc nodes rest h
    simp only [parse_nodes] at h
    split at h
    · simp only [Except.ok.injEq, Prod.mk.injEq] at h
      obtain ⟨-, h2⟩ := h
      subst h2
      simp
    · split at h
      · have := ih _ _ _ h
        simp
        omega
      · have := ih _ _ _ h
        simp
        omega

/-- A successful `parse_frames` leaves a suffix of its input. -/
theorem parse_frames_rest_length :
    ∀ (lines : List String) (acc frames : List (String × LdfFrame)) (rest : List String),
      parse_frames lines acc = .ok (frames, rest) → rest.length ≤ lines.length := by
  intro lines
  induction lines with
  | nil => intro acc frames rest h; simp [parse_frames] at h
  | cons l ls ih =>
    intro acc frames rest h
    simp only [parse_frames] at h
    split at h
    · split at h
      · exact absurd h (by simp)
      · split at h
        · exact absurd h (by simp)
        · have := ih _ _ _ h
          simp
          omega
    · split at h
      · simp only [Except.ok.injEq, Prod.mk.injEq] at h
        obtain ⟨-, h2⟩ := h
        subst h2
        simp
      · have := ih _ _ _ h
        simp
        omega

/-- A successful `parse_schedule_table` leaves a suffix of its input. -/
theorem parse_schedule_table_rest_length :
    ∀ (lines : List String) (acc tbl : ScheduleTable) (rest : List String),
      parse_schedule_table lines acc = .ok (tbl, rest) → rest.length ≤ lines.length := by
  intro lines
  induction lines with
  | nil => intro acc tbl rest h; simp [parse_schedule_table] at h
  | cons l ls ih =>
    intro acc tbl rest h
    simp only [parse_schedule_table] at h
    split at h
    · simp only [Except.ok.injEq, Prod.mk.injEq] at h
      obtain ⟨-, h2⟩ := h
      subst h2
      simp
    · split at h
      · have := ih _ _ _ h
        simp
        omega
      · have := ih _ _ _ h
        simp
        omega

/-- A successful `parse_schedule_table_header` leaves a suffix of the
line stream it was given. -/
theorem parse_schedule_table_header_rest_length (line : String)
    (lines : List String) (tbl : ScheduleTable) (rest : List String)
    (h : parse_schedule_table_header line lines = .ok (tbl, rest)) :
    rest.length ≤ lines.length := by
  rw [parse_schedule_table_header] at h
  split at h
  · exact absurd h (by simp)
  · exact parse_schedule_table_rest_length _ _ _ _ h

/-- Embedding of `ldf::parse_schedule_tables` (src/ldf.rs): a line
ending in an opening brace opens a nested named table parsed by
`parse_schedule_table`; a lone closing-brace line ends the block; an
exhausted stream is the "Schedule_Tables section never ended!" error. -/
def parse_schedule_tables (lines : List String) (acc : List (String × ScheduleTable)) :
    Except String (List (String × ScheduleTable) × List String) :=
  match lines with
  | [] => .error "Schedule_Tables section never ended!"
  | l :: rest =>
    if strEndsWith l '\x7b' then
      match h : parse_schedule_table_header l rest with
      | .error e => .error e
      | .ok (t, rest2) => parse_schedule_tables rest2 (mapInsert t.name t acc)
    else if l = "\x7d" then .ok (acc, rest)
    else parse_schedule_tables rest acc
termination_by lines.length
decreasing_by
  · have := parse_schedule_table_header_rest_length _ _ _ _ h
    simp
    omega
  · simp

/-- A successful `parse_schedule_tables` leaves a suffix of its input
(by strong induction on the stream length). -/
theorem parse_schedule_tables_rest_length :
    ∀ (n : Nat) (lines : List String), lines.length ≤ n →
      ∀ (acc m : List (String × ScheduleTable)) (rest : List String),
        parse_schedule_tables lines acc = .ok (m, rest) → rest.length ≤ lines.length := by
  intro n
  induction n with
  | zero =>
    intro lines hl acc m rest h
    have hnil : lines = [] := List.length_eq_zero.mp (Nat.le_zero.mp hl)
    subst hnil
    rw [parse_schedule_tables] at h
    exact absurd h (by simp)
  | succ n ih =>
    intro lines hl acc m rest h
    rcases lines with _ | ⟨l, ls⟩
    · rw [parse_schedule_tables] at h
      exact absurd h (by simp)
    · rw [parse_schedule_tables] at h
      split at h
      · split at h
        · exact absurd h (by simp)
        · rename_i t rest2 hhdr
          have h2 := parse_schedule_table_header_rest_length _ _ _ _ hhdr
          have h3 := ih rest2 (by simp at hl; omega) _ _ _ h
          simp
          omega
      · split at h
        · simp only [Except.ok.injEq, Prod.mk.injEq] at h
          obtain ⟨-, h2⟩ := h
          subst h2
          simp
        · have := ih ls (by simp at hl; omega) _ _ _ h
          simp
          omega

/-- Embedding of `ldf::parse_ldf_lines` (src/ldf.rs): single forward
pass; the three exact block-header lines hand off to their sub-parsers
with fresh accumulators, any other line is tested against the baudrate
directive regex and, on a match, stores `(value * 1000.0) as u32` as
the baudrate; end of stream returns the model built so far. -/
def parse_ldf_lines (lines : List String) (ldf : LDF) : Except String LDF :=
  match lines with
  | [] => .ok ldf
  | l :: rest =>
    if l = "Nodes \x7b" then
      match h : parse_nodes rest ⟨"", 0⟩ with
      | .error e => .error e
      | .ok (n, rest2) => parse_ldf_lines rest2 { ldf with nodes := n }
    else if l = "Frames \x7b" then
      match h : parse_frames rest [] with
      | .error e => .error e
      | .ok (fs, rest2) => parse_ldf_lines rest2 { ldf with frames := fs }
    else if l = "Schedule_tables \x7b" then
      match h : parse_schedule_tables rest [] with
      | .error e => .error e
      | .ok (ts, rest2) => parse_ldf_lines rest2 { ldf with schedule_tables := ts }
    else
      match parseBaudrateLine l with
      | some v => parse_ldf_lines rest { ldf with header := ⟨f32ToU32 (v * 1000)⟩ }
      | none => parse_ldf_lines rest ldf
termination_by lines.length
decreasing_by
  · have := parse_nodes_rest_length _ _ _ _ h
    simp
    omega
  · have := parse_frames_rest_length _ _ _ _ h
    simp
    omega
  · have := parse_schedule_tables_rest_length rest.length rest le_rfl _ _ _ h
    simp
    omega
  · simp
  · simp

/-- The empty model `parse_ldf_lines` starts from in the Rust code. -/
def initLDF : LDF := ⟨⟨0⟩, ⟨"", 0⟩, [], []⟩

/-- Embedding of `ldf::parse_file` minus the file IO: parse a list of
lines into a model, starting from the empty model. -/
def parse_ldf (lines : List String) : Except String LDF :=
  parse_ldf_lines lines initLDF

/-- Modelled from the spec: the spec stores the baudrate as
"round(value × 1000) bps (nearest-integer rounding of the kbps value
times 1000)"; rounding half up. -/
def spec_round_baudrate (v : ℚ) : ℤ :=
  ⌊v * 1000 + 1 / 2⌋

/-- C1: `parse_packet` behaves as the codec spec: inputs shorter than
8 bytes give a too-short error; otherwise the id is the first 4 bytes
little-endian, the declared length is byte 4, and the candidate payload
is the bytes from offset 8 on.  Declared < candidate length truncates
and accepts; declared > candidate length with non-empty candidate is a
length-mismatch error; an empty candidate is accepted unconditionally,
regardless of the declared length. -/
theorem C1_parse_packet_spec (packet : List Nat) :
    (packet.length < 8 → parse_packet packet = .error (.tooShort packet.length)) ∧
    (8 ≤ packet.length →
      (∀ p, parse_packet packet = .ok p →
        p.frame.id =
          le32 (packet.getD 0 0) (packet.getD 1 0) (packet.getD 2 0) (packet.getD 3 0)) ∧
      (packet.getD 4 0 < (packet.drop 8).length →
        parse_packet packet =
          .ok ⟨⟨le32 (packet.getD 0 0) (packet.getD 1 0) (packet.getD 2 0) (packet.getD 3 0),
            (packet.drop 8).take (packet.getD 4 0)⟩⟩) ∧
      ((packet.drop 8).length < packet.getD 4 0 → packet.drop 8 ≠ [] →
        parse_packet packet = .error (.lengthMismatch (packet.getD 4 0) packet.length)) ∧
      (packet.drop 8 = [] →
        parse_packet packet =
          .ok ⟨⟨le32 (packet.getD 0 0) (packet.getD 1 0) (packet.getD 2 0) (packet.getD 3 0),
            []⟩⟩)) := by
  refine ⟨fun hshort => ?_, fun hlong => ⟨?_, ?_, ?_, ?_⟩⟩
  · rw [parse_packet, if_neg (by omega)]
  · intro p hp
    simp only [parse_packet, if_pos hlong] at hp
    split at hp
    · cases hp; rfl
    · split at hp
      · cases hp
      · cases hp; rfl
  · intro hlt
    rw [parse_packet, if_pos hlong, if_pos hlt]
  · intro hgt hne
    rw [parse_packet, if_pos hlong, if_neg (by omega), if_pos ⟨hne, hgt⟩]
  · intro hempty
    rw [parse_packet, if_pos hlong, hempty]
    simp

/-- C1 witness: concrete evaluations of the theorem — the 16-byte test
packet decodes to id 0x31 with the 3-byte payload, and a 2-byte packet
is rejected as too short. -/
theorem C1_parse_packet_spec_witness :
    parse_packet [49, 0, 0, 0, 3, 0, 0, 0, 10, 20, 30, 0, 0, 0, 0, 0] =
      .ok ⟨⟨49, [10, 20, 30]⟩⟩ ∧
    parse_packet [1, 2] = .error (.tooShort 2) := by
  constructor
  · have h :=
      ((C1_parse_packet_spec [49, 0, 0, 0, 3, 0, 0, 0, 10, 20, 30, 0, 0, 0, 0, 0]).2
        (by decide)).2.1 (by decide)
    simpa [le32] using h
  · exact (C1_parse_packet_spec [1, 2]).1 (by decide)

/-- C4: codec round trip.  For every 32-bit id, payload of length at
most 247, reserved bytes and trailing pad bytes, decoding the packet
built as 4 id bytes, one length byte, 3 reserved bytes, the payload,
then the pad, succeeds and recovers the id and exactly the payload. -/
theorem C4_codec_roundtrip (id : Nat) (hid : id < 2 ^ 32) (payload : List Nat)
    (hlen : payload.length ≤ 247) (r1 r2 r3 : Nat) (pad : List Nat) :
    parse_packet (toLeBytes id ++ [payload.length] ++ [r1, r2, r3] ++ payload ++ pad) =
      .ok ⟨⟨id, payload⟩⟩ := by
  have hid' : le32 (id % 2 ^ 8) (id / 2 ^ 8 % 2 ^ 8) (id / 2 ^ 16 % 2 ^ 8)
      (id / 2 ^ 24 % 2 ^ 8) = id := by
    unfold le32
    omega
  rw [toLeBytes]
  simp only [List.cons_append, List.nil_append]
  rw [parse_packet]
  rw [if_pos (by simp)]
  simp only [List.getD_cons_zero, List.getD_cons_succ, List.drop_succ_cons, List.drop_zero]
  rcases pad with _ | ⟨q, qs⟩
  · rw [List.append_nil]
    rw [if_neg (by omega), if_neg (by simp)]
    rw [hid']
  · rw [if_pos (by simp)]
    rw [hid', List.take_left]

/-- C4 witness: the round-trip theorem applied at id 0x31, payload
`[10, 20, 30]`, zero reserved bytes, and five pad bytes. -/
theorem C4_codec_roundtrip_witness :
    parse_packet [49, 0, 0, 0, 3, 0, 0, 0, 10, 20, 30, 0, 0, 0, 0, 0] =
      .ok ⟨⟨49, [10, 20, 30]⟩⟩ := by
  have h := C4_codec_roundtrip 49 (by decide) [10, 20, 30] (by decide) 0 0 0 [0, 0, 0, 0, 0]
  simpa [toLeBytes] using h

/-- C3 counterexample: the claim's one-shot re-arming is false on the
code.  With `c3Slave` always yielding id 1 payload `[5]`, after a single
`update` of id 1 the first `try_read` is blanked as claimed, but the
claim then requires the following `try_read` to pass the payload `[5]`
through un-blanked; instead the decorator blanks it again, because
`try_read` never removes the id from `updated_frames`. -/
theorem C3_noecho_counterexample :
    (NoEchoSlave.try_read c3Slave c3St1).1 = some ⟨1, []⟩ ∧
    (NoEchoSlave.try_read c3Slave c3St2).1 = some ⟨1, []⟩ ∧
    ([5] : List Nat) ≠ [] := by
  refine ⟨rfl, rfl, by decide⟩

/-- C3 amended: suppression is permanent, not one-shot.  `update(X)`
puts `X` in the suppression set; `try_read` never changes the set; every
`try_read` yielding a frame whose id is in the set returns it with empty
payload; a `try_read` yielding a frame whose id is not in the set
returns the wrapped frame unchanged.  So after `update(X)` every later
read of id `X` is blanked until the bridge is torn down — a second
`update(X)` changes nothing observable, and other ids are unaffected. -/
theorem C3_noecho_amended {σ : Type} (S : SlaveSM σ) (st : NoEchoState σ) (f g : Frame) :
    f.id ∈ ((NoEchoSlave.update S f st).2).updated_frames ∧
    (NoEchoSlave.try_read S st).2.updated_frames = st.updated_frames ∧
    ((S.try_read st.target).1 = some g → g.id ∈ st.updated_frames →
      (NoEchoSlave.try_read S st).1 = some ⟨g.id, []⟩) ∧
    ((S.try_read st.target).1 = some g → g.id ∉ st.updated_frames →
      (NoEchoSlave.try_read S st).1 = some g) := by
  refine ⟨?_, ?_, ?_, ?_⟩
  · rcases hS : S.update f st.target with ⟨r, t⟩
    simp only [NoEchoSlave.update, hS, hsInsert]
    split
    · assumption
    · exact List.mem_cons_self _ _
  · rcases hS : S.try_read st.target with ⟨f?, t⟩
    cases f? <;> simp [NoEchoSlave.try_read, hS]
  · intro hread hmem
    rcases hS : S.try_read st.target with ⟨f?, t⟩
    rw [hS] at hread
    cases f? with
    | none => cases hread
    | some x =>
      cases hread
      simp [NoEchoSlave.try_read, hS, if_pos hmem]
  · intro hread hmem
    rcases hS : S.try_read st.target with ⟨f?, t⟩
    rw [hS] at hread
    cases f? with
    | none => cases hread
    | some x =>
      cases hread
      simp [NoEchoSlave.try_read, hS, if_neg hmem]

/-- C3 amended witness: after one update of id 1 on the concrete slave,
id 1 is suppressed and the next read comes back blanked. -/
theorem C3_noecho_amended_witness :
    1 ∈ c3St1.updated_frames ∧
    (NoEchoSlave.try_read c3Slave c3St1).1 = some ⟨1, []⟩ := by
  refine ⟨?_, ?_⟩
  · exact (C3_noecho_amended c3Slave ⟨(), []⟩ ⟨1, [5]⟩ ⟨1, [5]⟩).1
  · exact (C3_noecho_amended c3Slave c3St1 ⟨1, [5]⟩ ⟨1, [5]⟩).2.2.1 (by decide) (by decide)

/-- C10: `NoEchoSlave::update` is not atomic on error — the id goes into
the suppression set before the wrapped update runs, so even when the
wrapped `update` returns an error, the id is in the set afterwards and a
subsequent `try_read` yielding that id still has its payload blanked. -/
theorem C10_noecho_update_not_atomic {σ : Type} (S : SlaveSM σ) (f : Frame)
    (st : NoEchoState σ) (e : String)
    (herr : (NoEchoSlave.update S f st).1 = .error e) :
    f.id ∈ (NoEchoSlave.update S f st).2.updated_frames ∧
    (∀ g, (S.try_read (NoEchoSlave.update S f st).2.target).1 = some g → g.id = f.id →
      (NoEchoSlave.try_read S (NoEchoSlave.update S f st).2).1 = some ⟨f.id, []⟩) := by
  rcases hS : S.update f st.target with ⟨r, t⟩
  constructor
  · simp only [NoEchoSlave.update, hS, hsInsert]
    split
    · assumption
    · exact List.mem_cons_self _ _
  · intro g hread hid
    rcases hS2 : S.try_read (NoEchoSlave.update S f st).2.target with ⟨g?, t2⟩
    rw [hS2] at hread
    cases g? with
    | none => cases hread
    | some x =>
      cases hread
      have hmem : g.id ∈ (NoEchoSlave.update S f st).2.updated_frames := by
        simp only [NoEchoSlave.update, hS, hsInsert, hid]
        split
        · assumption
        · exact List.mem_cons_self _ _
      rw [hid] at hmem
      simp [NoEchoSlave.try_read, hS2, hid, hmem]

/-- C10 witness: on the concrete always-failing wrapped slave, one
update of frame id 7 errors, yet id 7 is suppressed and the following
read of id 7 is blanked. -/
theorem C10_noecho_update_not_atomic_witness :
    7 ∈ (NoEchoSlave.update c10Slave ⟨7, [9]⟩ ⟨(), []⟩).2.updated_frames ∧
    (NoEchoSlave.try_read c10Slave (NoEchoSlave.update c10Slave ⟨7, [9]⟩ ⟨(), []⟩).2).1 =
      some ⟨7, []⟩ := by
  have h := C10_noecho_update_not_atomic c10Slave ⟨7, [9]⟩ ⟨(), []⟩
    "wrapped update failed" rfl
  exact ⟨h.1, h.2 ⟨7, [9]⟩ rfl rfl⟩

/-- C5 counterexample: the claim, quantified only over models with the
named table present, is false.  In `c5State` the table `T` is present
and `elapsed_in_slot = 0`, so the claim requires the poll to return a
frame and to increase the elapsed counter by the base tick; instead,
because the entry's frame name `F` is absent from the `Frames` map, the
poll returns no frame and leaves the state (counters included)
completely unchanged. -/
theorem C5_master_simulator_counterexample :
    mapGet c5State.ldf.schedule_tables c5State.schedule_table_name =
      some ⟨"T", [⟨"F", (15 : ℚ)⟩]⟩ ∧
    c5State.elapsed_in_table_index = 0 ∧
    MasterSimulator.try_read c5State = some (none, c5State) := by
  refine ⟨rfl, rfl, rfl⟩

/-- C5 amended: the claimed poll behavior holds whenever, additionally,
the current entry is in bounds and its name resolves to a frame
descriptor (otherwise the poll is a no-op returning no frame), the
advance threshold is the entry's delay truncated by the `f32 as u32`
cast, and the `u32` elapsed counter does not overflow.  Under those
hypotheses: a frame is returned exactly when the elapsed counter is 0
at the start of the poll, built from the descriptor with payload
`0..size-1` when the descriptor's owner is the schedule's master node
and empty otherwise; the counter then grows by the base tick, and when
it reaches or exceeds the truncated delay the index advances modulo the
table length and the counter resets to 0; both counters start at 0 at
construction. -/
theorem C5_master_simulator_amended (s : MasterSimState) (table : ScheduleTable)
    (entry : ScheduleTableItem) (fd : LdfFrame)
    (ht : mapGet s.ldf.schedule_tables s.schedule_table_name = some table)
    (he : table.items[s.table_index]? = some entry)
    (hf : mapGet s.ldf.frames entry.name = some fd)
    (hof : s.elapsed_in_table_index + s.ldf.nodes.base_tick_ms < 2 ^ 32) :
    (∀ ldf n, (MasterSimulator.new ldf n).table_index = 0 ∧
      (MasterSimulator.new ldf n).elapsed_in_table_index = 0) ∧
    MasterSimulator.try_read s = some
      (if s.elapsed_in_table_index = 0 then
        some ⟨fd.id, if fd.owner = s.ldf.nodes.master then List.range fd.size else []⟩
      else none,
      if f32ToU32 entry.delay ≤ s.elapsed_in_table_index + s.ldf.nodes.base_tick_ms then
        { s with table_index := (s.table_index + 1) % table.items.length,
                 elapsed_in_table_index := 0 }
      else
        { s with elapsed_in_table_index :=
            s.elapsed_in_table_index + s.ldf.nodes.base_tick_ms }) := by
  refine ⟨fun ldf n => ⟨rfl, rfl⟩, ?_⟩
  simp only [MasterSimulator.try_read, ht, he, hf, Nat.mod_eq_of_lt hof]
  split_ifs <;> rfl

/-- C5 witness: one poll of the freshly constructed simulator over the
well-formed one-entry model emits the master-owned frame with filler
payload `[0, 1, 2]` and advances only the elapsed counter (5 < 15). -/
theorem C5_master_simulator_amended_witness :
    MasterSimulator.try_read c5GoodState =
      some (some ⟨49, [0, 1, 2]⟩, ⟨"T", c5GoodLdf, 0, 5⟩) := by
  have h := (C5_master_simulator_amended c5GoodState ⟨"T", [⟨"F", (15 : ℚ)⟩]⟩
    ⟨"F", (15 : ℚ)⟩ ⟨"F", 49, "TheMaster", 3⟩ rfl rfl rfl (by decide)).2
  rw [h]
  norm_num [f32ToU32]
  decide

/-- C9: the embedding of `MasterSimulator::try_read` is total only under
the precondition that the named schedule table is non-empty.  If the
named table exists but its item list is empty, the poll indexes out of
bounds — a panic, the `none` of the outer `Option`.  If the named table
is absent from the model, every poll merely returns no frame and leaves
the state unchanged.  If the table is non-empty and the index is in
bounds, the poll never panics. -/
theorem C9_master_simulator_totality (s : MasterSimState) :
    (∀ table, mapGet s.ldf.schedule_tables s.schedule_table_name = some table →
      table.items = [] → MasterSimulator.try_read s = none) ∧
    (mapGet s.ldf.schedule_tables s.schedule_table_name = none →
      MasterSimulator.try_read s = some (none, s)) ∧
    (∀ table, mapGet s.ldf.schedule_tables s.schedule_table_name = some table →
      s.table_index < table.items.length →
      (MasterSimulator.try_read s).isSome = true) := by
  refine ⟨?_, ?_, ?_⟩
  · intro table ht hempty
    simp [MasterSimulator.try_read, ht, hempty]
  · intro ht
    simp [MasterSimulator.try_read, ht]
  · intro table ht hlt
    have he : table.items[s.table_index]? = some table.items[s.table_index] :=
      List.getElem?_eq_getElem hlt
    rcases hf : mapGet s.ldf.frames (table.items[s.table_index]).name with _ | fd
    · simp [MasterSimulator.try_read, ht, he, hf]
    · simp only [MasterSimulator.try_read, ht, he, hf]
      split_ifs <;> simp

/-- C9 witness: the empty table `T` makes the poll panic, the absent
name `X` makes it return no frame with the state unchanged, and the
non-empty table polls without panicking. -/
theorem C9_master_simulator_totality_witness :
    MasterSimulator.try_read c9StEmpty = none ∧
    MasterSimulator.try_read c9StAbsent = some (none, c9StAbsent) ∧
    (MasterSimulator.try_read c9StGood).isSome = true := by
  refine ⟨(C9_master_simulator_totality c9StEmpty).1 ⟨"T", []⟩ rfl rfl,
    (C9_master_simulator_totality c9StAbsent).2.1 rfl,
    (C9_master_simulator_totality c9StGood).2.2 ⟨"T", [⟨"F", (15 : ℚ)⟩]⟩ rfl (by decide)⟩

/-- C2 counterexample: the claim says a failing `request_update` is
logged and the bridge loop continues, but in the code
`read_and_forward_network_master_frame` returns the backend result and
`run_master_role` applies `?` to it, so the loop terminates with the
error.  Concretely: the empty-payload packet for id 0x31 on a backend
whose `request_update` fails makes the iteration exit with that error
instead of continuing. -/
theorem C2_master_dispatch_counterexample :
    parse_packet c2Packet = .ok ⟨⟨49, []⟩⟩ ∧
    read_and_forward_network_master_frame c2Master c2Packet =
      ([.request_update 49], .error "request_update failed") ∧
    run_master_role_vbus_event c2Master (.ok c2Packet) =
      .exitErr "request_update failed" ∧
    LoopStep.exitErr "request_update failed" ≠ LoopStep.next := by
  refine ⟨rfl, rfl, rfl, by decide⟩

/-- C2 amended: for every successfully decoded inbound network frame in
the master role, an empty payload causes exactly a `request_update(id)`
call and a non-empty payload exactly a `write(frame)` call; a failure
of either call terminates the bridge loop with that error (both are
fatal — `request_update` failure is not merely logged), and a
successful call lets the loop continue. -/
theorem C2_master_dispatch_amended (m : MasterIface) (bytes : List Nat) (packet : Packet)
    (hp : parse_packet bytes = .ok packet) :
    (packet.frame.msg = [] →
      read_and_forward_network_master_frame m bytes =
        ([.request_update packet.frame.id], m.request_update packet.frame.id)) ∧
    (packet.frame.msg ≠ [] →
      read_and_forward_network_master_frame m bytes =
        ([.write packet.frame], m.write packet.frame)) ∧
    ((read_and_forward_network_master_frame m bytes).2 = .ok () →
      run_master_role_vbus_event m (.ok bytes) = .next) ∧
    (∀ e, (read_and_forward_network_master_frame m bytes).2 = .error e →
      run_master_role_vbus_event m (.ok bytes) = .exitErr e) := by
  refine ⟨fun hempty => ?_, fun hne => ?_, fun hok => ?_, fun e herr => ?_⟩
  · simp [read_and_forward_network_master_frame, hp, hempty]
  · simp [read_and_forward_network_master_frame, hp, hne]
  · simp [run_master_role_vbus_event, hok]
  · simp [run_master_role_vbus_event, herr]

/-- C2 witness: the amended theorem applied at concrete packets and
backends — the empty-payload packet dispatches to `request_update` and
its failure exits the loop; the non-empty packet dispatches to `write`
and its failure exits the loop. -/
theorem C2_master_dispatch_amended_witness :
    read_and_forward_network_master_frame c2Master c2Packet =
      ([.request_update 49], .error "request_update failed") ∧
    run_master_role_vbus_event c2Master (.ok c2Packet) =
      .exitErr "request_update failed" ∧
    read_and_forward_network_master_frame c2WMaster c2WPacket =
      ([.write ⟨49, [10, 20, 30]⟩], .error "write failed") ∧
    run_master_role_vbus_event c2WMaster (.ok c2WPacket) = .exitErr "write failed" := by
  refine ⟨?_, ?_, ?_, ?_⟩
  · exact (C2_master_dispatch_amended c2Master c2Packet ⟨⟨49, []⟩⟩ rfl).1 rfl
  · exact (C2_master_dispatch_amended c2Master c2Packet ⟨⟨49, []⟩⟩ rfl).2.2.2
      "request_update failed" rfl
  · exact (C2_master_dispatch_amended c2WMaster c2WPacket ⟨⟨49, [10, 20, 30]⟩⟩ rfl).2.1
      (by decide)
  · exact (C2_master_dispatch_amended c2WMaster c2WPacket ⟨⟨49, [10, 20, 30]⟩⟩ rfl).2.2.2
      "write failed" rfl

/-- C7: in both roles, a decode failure of an inbound network frame
never terminates the bridge loop: the handler makes no backend call and
returns success, and the loop iteration ends with `next`, so subsequent
ticks and valid frames are processed by the unchanged loop against an
untouched backend. -/
theorem C7_decode_failure_nonfatal (bytes : List Nat) (e : ParseError)
    (hp : parse_packet bytes = .error e) (m : MasterIface) :
    read_and_forward_network_master_frame m bytes = ([], .ok ()) ∧
    run_master_role_vbus_event m (.ok bytes) = .next ∧
    read_and_forward_network_slave_frame bytes = [] ∧
    run_slave_role_vbus_event (.ok bytes) = .next := by
  have hm : read_and_forward_network_master_frame m bytes = ([], .ok ()) := by
    simp [read_and_forward_network_master_frame, hp]
  refine ⟨hm, ?_, ?_, rfl⟩
  · simp [run_master_role_vbus_event, hm]
  · simp [read_and_forward_network_slave_frame, hp]

/-- C7 witness: a 2-byte inbound frame fails to decode, and both role
handlers make no backend call and continue the loop. -/
theorem C7_decode_failure_nonfatal_witness :
    read_and_forward_network_master_frame c7Master [1, 2] = ([], .ok ()) ∧
    run_master_role_vbus_event c7Master (.ok [1, 2]) = .next ∧
    read_and_forward_network_slave_frame [1, 2] = [] ∧
    run_slave_role_vbus_event (.ok [1, 2]) = .next :=
  C7_decode_failure_nonfatal [1, 2] (.tooShort 2) rfl c7Master

/-- C6 counterexample: the spec's nearest-integer rounding is false on
the code, which truncates.  The directive line `LIN_speed = 0.0015
kbps;` matches the baudrate regex with value 0.0015 kbps; value × 1000
is 1.5 bps, which the spec rounds to 2, but the loader's `as u32` cast
truncates to 1 and the parsed model stores baudrate 1. -/
theorem C6_baudrate_counterexample :
    parseBaudrateLine "LIN_speed = 0.0015 kbps;" = some (3 / 2000 : ℚ) ∧
    parse_ldf ["LIN_speed = 0.0015 kbps;"] = .ok ⟨⟨1⟩, ⟨"", 0⟩, [], []⟩ ∧
    spec_round_baudrate (3 / 2000) = 2 ∧ (1 : ℤ) ≠ 2 := by
  have h1 : parseBaudrateLine "LIN_speed = 0.0015 kbps;" =
      some ((digitsToNat ['0'] : ℚ) +
        (digitsToNat ['0', '0', '1', '5'] : ℚ) / (10 : ℚ) ^ (4 : ℕ)) := rfl
  have hval : ((digitsToNat ['0'] : ℚ) +
      (digitsToNat ['0', '0', '1', '5'] : ℚ) / (10 : ℚ) ^ (4 : ℕ)) = 3 / 2000 := by
    rw [show digitsToNat ['0'] = 0 from rfl,
      show digitsToNat ['0', '0', '1', '5'] = 15 from rfl]
    norm_num
  refine ⟨by rw [h1, hval], ?_, ?_, by decide⟩
  · rw [parse_ldf, parse_ldf_lines]
    rw [if_neg (by decide), if_neg (by decide), if_neg (by decide)]
    rw [h1]
    simp only
    rw [parse_ldf_lines]
    have hcast : f32ToU32 (((digitsToNat ['0'] : ℚ) +
        (digitsToNat ['0', '0', '1', '5'] : ℚ) / (10 : ℚ) ^ (4 : ℕ)) * 1000) = 1 := by
      rw [hval, f32ToU32]
      norm_num
    rw [hcast]
    rfl
  · rw [spec_round_baudrate]
    norm_num

/-- C6 amended: for every kbps value matched by the baudrate directive
line, the loader stores the model baudrate as `(value × 1000) as u32` —
truncation toward zero of the product (saturating at the `u32` bounds),
not nearest-integer rounding. -/
theorem C6_baudrate_truncated_amended (l : String) (v : ℚ) (rest : List String) (ldf : LDF)
    (hv : parseBaudrateLine l = some v) :
    parse_ldf_lines (l :: rest) ldf =
      parse_ldf_lines rest { ldf with header := ⟨f32ToU32 (v * 1000)⟩ } := by
  have h1 : l ≠ "Nodes \x7b" := by
    intro heq
    subst heq
    rw [show parseBaudrateLine "Nodes \x7b" = none from rfl] at hv
    cases hv
  have h2 : l ≠ "Frames \x7b" := by
    intro heq
    subst heq
    rw [show parseBaudrateLine "Frames \x7b" = none from rfl] at hv
    cases hv
  have h3 : l ≠ "Schedule_tables \x7b" := by
    intro heq
    subst heq
    rw [show parseBaudrateLine "Schedule_tables \x7b" = none from rfl] at hv
    cases hv
  rw [parse_ldf_lines, if_neg h1, if_neg h2, if_neg h3]
  split
  · rename_i v2 heq
    rw [hv] at heq
    cases heq
    rfl
  · rename_i heq
    rw [hv] at heq
    cases heq

/-- C6 witness: on the directive line `LIN_speed = 19.2 kbps;` the
amended rule stores 19200 bps. -/
theorem C6_baudrate_truncated_amended_witness :
    parse_ldf ["LIN_speed = 19.2 kbps;"] = .ok ⟨⟨19200⟩, ⟨"", 0⟩, [], []⟩ := by
  have h1 : parseBaudrateLine "LIN_speed = 19.2 kbps;" =
      some ((digitsToNat ['1', '9'] : ℚ) + (digitsToNat ['2'] : ℚ) / (10 : ℚ) ^ (1 : ℕ)) :=
    rfl
  have hval : ((digitsToNat ['1', '9'] : ℚ) + (digitsToNat ['2'] : ℚ) / (10 : ℚ) ^ (1 : ℕ)) =
      96 / 5 := by
    rw [show digitsToNat ['1', '9'] = 19 from rfl, show digitsToNat ['2'] = 2 from rfl]
    norm_num
  rw [hval] at h1
  have h := C6_baudrate_truncated_amended _ _ [] initLDF h1
  rw [parse_ldf, h, parse_ldf_lines]
  have hcast : f32ToU32 ((96 / 5 : ℚ) * 1000) = 19200 := by
    rw [f32ToU32]
    norm_num
    decide
  rw [hcast]
  rfl

